import Mathlib

/-!
Shallow embedding of the TETFLIP simulation core (tetrahedral-mesh FLIP
fluid simulator): `TetrahedralMesh`, `ParticleSystem`, `PressureSolver`
and the per-step phases of `TetFlipSimulator`.  JavaScript numbers are
modelled as exact rationals `ℚ`; flat `Float32Array` buffers are `List ℚ`
(respectively `List ℕ` for the tetrahedron index buffer), with reads via
`List.getD` and in-place writes via `List.set`, mirroring the source's
index arithmetic.
-/

namespace TetFlip

/-- A 3-component point or vector, as the source's `[x, y, z]` triples. -/
structure Vec3 where
  x : ℚ
  y : ℚ
  z : ℚ
  deriving Repr, DecidableEq

instance : Inhabited Vec3 := ⟨⟨0, 0, 0⟩⟩

/-- Mesh state: flat node-position buffer `[x,y,z,...]`, flat node-velocity
buffer, and flat tetrahedron index buffer `[n0,n1,n2,n3,...]`
(`TetrahedralMesh` fields `nodes`, `nodeVelocities`, `tetrahedra`). -/
structure Mesh where
  nodes : List ℚ
  nodeVelocities : List ℚ
  tetrahedra : List ℕ
  deriving Repr, DecidableEq

/-- `nodeCount == nodes.length / 3`. -/
def Mesh.nodeCount (m : Mesh) : ℕ := m.nodes.length / 3

/-- `tetCount == tetrahedra.length / 4`. -/
def Mesh.tetCount (m : Mesh) : ℕ := m.tetrahedra.length / 4

/-- `getTetrahedron(index)`: the 4 node indices of a tetrahedron,
read from the flat buffer at offset `index * 4`. -/
def Mesh.getTetrahedron (m : Mesh) (index : ℕ) : List ℕ :=
  [m.tetrahedra.getD (index * 4) 0,
   m.tetrahedra.getD (index * 4 + 1) 0,
   m.tetrahedra.getD (index * 4 + 2) 0,
   m.tetrahedra.getD (index * 4 + 3) 0]

/-- Read node `n`'s position from a flat node buffer, as the source's
`[nodes[n*3], nodes[n*3+1], nodes[n*3+2]]`. -/
def nodePos (nodes : List ℚ) (n : ℕ) : Vec3 :=
  ⟨nodes.getD (n * 3) 0, nodes.getD (n * 3 + 1) 0, nodes.getD (n * 3 + 2) 0⟩

/-- `tetrahedronVolume(p0,p1,p2,p3)`: signed volume via the scalar triple
product `v1 · (v2 × v3) / 6` of the edge vectors from `p0`. -/
def tetrahedronVolume (p0 p1 p2 p3 : Vec3) : ℚ :=
  let v1 : Vec3 := ⟨p1.x - p0.x, p1.y - p0.y, p1.z - p0.z⟩
  let v2 : Vec3 := ⟨p2.x - p0.x, p2.y - p0.y, p2.z - p0.z⟩
  let v3 : Vec3 := ⟨p3.x - p0.x, p3.y - p0.y, p3.z - p0.z⟩
  let cross : Vec3 :=
    ⟨v2.y * v3.z - v2.z * v3.y,
     v2.z * v3.x - v2.x * v3.z,
     v2.x * v3.y - v2.y * v3.x⟩
  (v1.x * cross.x + v1.y * cross.y + v1.z * cross.z) / 6

/-- The degeneracy threshold `1e-10` of `computeBarycentricCoordinates`. -/
def degenEps : ℚ := 1 / 10 ^ 10

/-- The signed volume of tetrahedron `tetIndex` of the mesh. -/
def Mesh.tetVolume (m : Mesh) (tetIndex : ℕ) : ℚ :=
  let tet := m.getTetrahedron tetIndex
  tetrahedronVolume (nodePos m.nodes (tet.getD 0 0)) (nodePos m.nodes (tet.getD 1 0))
    (nodePos m.nodes (tet.getD 2 0)) (nodePos m.nodes (tet.getD 3 0))

/-- `computeBarycentricCoordinates(tetIndex, x, y, z)`: the four
sub-volume ratios, or `[0.25, 0.25, 0.25, 0.25]` when `|volume| < 1e-10`
(degenerate tetrahedron). -/
def Mesh.computeBarycentricCoordinates (m : Mesh) (tetIndex : ℕ) (x y z : ℚ) : List ℚ :=
  let tet := m.getTetrahedron tetIndex
  let p0 := nodePos m.nodes (tet.getD 0 0)
  let p1 := nodePos m.nodes (tet.getD 1 0)
  let p2 := nodePos m.nodes (tet.getD 2 0)
  let p3 := nodePos m.nodes (tet.getD 3 0)
  let volume := tetrahedronVolume p0 p1 p2 p3
  if |volume| < degenEps then
    [1/4, 1/4, 1/4, 1/4]
  else
    let p : Vec3 := ⟨x, y, z⟩
    let v0 := tetrahedronVolume p p1 p2 p3
    let v1 := tetrahedronVolume p0 p p2 p3
    let v2 := tetrahedronVolume p0 p1 p p3
    let v3 := tetrahedronVolume p0 p1 p2 p
    [v0 / volume, v1 / volume, v2 / volume, v3 / volume]

/-- The containment test of `findContainingTetrahedron`:
`bary[0] >= 0 && bary[1] >= 0 && bary[2] >= 0 && bary[3] >= 0`. -/
def baryNonneg (bary : List ℚ) : Bool :=
  0 ≤ bary.getD 0 0 ∧ 0 ≤ bary.getD 1 0 ∧ 0 ≤ bary.getD 2 0 ∧ 0 ≤ bary.getD 3 0

/-- `findContainingTetrahedron(x, y, z)`: linear scan over tetrahedron
indices in ascending order; the first whose four barycentric coordinates
are all nonnegative is returned, `-1` if none. -/
def Mesh.findContainingTetrahedron (m : Mesh) (x y z : ℚ) : Int :=
  match (List.range m.tetCount).find?
      (fun t => baryNonneg (m.computeBarycentricCoordinates t x y z)) with
  | some t => (t : Int)
  | none => -1

/-- `createRegularMesh(nx, ny, nz)` of `TetrahedralMesh` with domain
bounds `domainMin`/`domainMax`: a regular `(nx+1)(ny+1)(nz+1)` node
lattice, each cell split into 5 tetrahedra by the fixed pattern of the
source; node velocities initialized to zero. -/
def createRegularMesh (domainMin domainMax : Vec3) (nx ny nz : ℕ) : Mesh :=
  let dx := (domainMax.x - domainMin.x) / nx
  let dy := (domainMax.y - domainMin.y) / ny
  let dz := (domainMax.z - domainMin.z) / nz
  let nodes := (List.range (nz + 1)).flatMap fun k =>
    (List.range (ny + 1)).flatMap fun j =>
      (List.range (nx + 1)).flatMap fun i =>
        [domainMin.x + i * dx, domainMin.y + j * dy, domainMin.z + k * dz]
  let getNodeIndex := fun (i j k : ℕ) => i + j * (nx + 1) + k * (nx + 1) * (ny + 1)
  let tetrahedra := (List.range nz).flatMap fun k =>
    (List.range ny).flatMap fun j =>
      (List.range nx).flatMap fun i =>
        let n000 := getNodeIndex i (j) (k)
        let n100 := getNodeIndex (i+1) (j) (k)
        let n010 := getNodeIndex i (j+1) (k)
        let n110 := getNodeIndex (i+1) (j+1) (k)
        let n001 := getNodeIndex i (j) (k+1)
        let n101 := getNodeIndex (i+1) (j) (k+1)
        let n011 := getNodeIndex i (j+1) (k+1)
        let n111 := getNodeIndex (i+1) (j+1) (k+1)
        [n000, n100, n110, n101,
         n000, n110, n010, n011,
         n000, n101, n001, n011,
         n110, n101, n111, n011,
         n000, n110, n101, n011]
  { nodes := nodes,
    nodeVelocities := List.replicate nodes.length 0,
    tetrahedra := tetrahedra }

/-- Particle buffers of `ParticleSystem`: fixed capacity `maxParticles`,
live `count`, flat position and velocity buffers. -/
structure ParticleSystem where
  maxParticles : ℕ
  count : ℕ
  positions : List ℚ
  velocities : List ℚ
  deriving Repr, DecidableEq

/-- The source constructor-plus-initialization of `ParticleSystem` (its async init method): zero-filled buffers of
`maxParticles * 3` entries and `count = 0`. -/
def ParticleSystem.init (maxParticles : ℕ) : ParticleSystem :=
  { maxParticles := maxParticles
    count := 0
    positions := List.replicate (maxParticles * 3) 0
    velocities := List.replicate (maxParticles * 3) 0 }

/-- `TypedArray.set(src)` at offset 0: overwrite the first `src.length`
entries of `dst`, keeping the tail. -/
def bufferSet (dst src : List ℚ) : List ℚ := src ++ dst.drop src.length

/-- `setPositions(positions)`: truncate to `maxParticles * 3` entries when
longer (the `Bool` result records the `console.warn` truncation signal),
write into the position buffer, and set `count = positions.length / 3`. -/
def ParticleSystem.setPositions (ps : ParticleSystem) (positions : List ℚ) :
    ParticleSystem × Bool :=
  let truncated := ps.maxParticles * 3 < positions.length
  let positions := if truncated then positions.take (ps.maxParticles * 3) else positions
  ({ ps with positions := bufferSet ps.positions positions
             count := positions.length / 3 }, truncated)

/-- `setVelocities(velocities)`: truncate to capacity when longer (the
`Bool` records the warning), write into the velocity buffer; `count` is
not touched. -/
def ParticleSystem.setVelocities (ps : ParticleSystem) (velocities : List ℚ) :
    ParticleSystem × Bool :=
  let truncated := ps.maxParticles * 3 < velocities.length
  let velocities := if truncated then velocities.take (ps.maxParticles * 3) else velocities
  ({ ps with velocities := bufferSet ps.velocities velocities }, truncated)

/-- One particle slot of the P2G loop of `particlesToMesh`: locate the
particle in the mesh whose node buffer is the running accumulator
(`meshNodes` is the live `this.nodes` array) and, on success, scatter
`bary[i] * velocity` into the 4 node slots and `bary[i]` into the weight
accumulator; on failure leave the state unchanged. -/
def p2gStep (mesh : Mesh) (ps : ParticleSystem) (st : List ℚ × List ℚ) (j : ℕ) :
    List ℚ × List ℚ :=
  let px := ps.positions.getD (j * 3) 0
  let py := ps.positions.getD (j * 3 + 1) 0
  let pz := ps.positions.getD (j * 3 + 2) 0
  let vx := ps.velocities.getD (j * 3) 0
  let vy := ps.velocities.getD (j * 3 + 1) 0
  let vz := ps.velocities.getD (j * 3 + 2) 0
  let cur : Mesh := { mesh with nodes := st.1 }
  let tetIndex := cur.findContainingTetrahedron px py pz
  if 0 ≤ tetIndex then
    let t := tetIndex.toNat
    let tet := cur.getTetrahedron t
    let bary := cur.computeBarycentricCoordinates t px py pz
    (List.range 4).foldl (fun st2 i =>
      let nodeIdx := tet.getD i 0
      let w := bary.getD i 0
      let a := st2.1.set (nodeIdx * 3) (st2.1.getD (nodeIdx * 3) 0 + w * vx)
      let b := a.set (nodeIdx * 3 + 1) (a.getD (nodeIdx * 3 + 1) 0 + w * vy)
      let c := b.set (nodeIdx * 3 + 2) (b.getD (nodeIdx * 3 + 2) 0 + w * vz)
      (c, st2.2.set nodeIdx (st2.2.getD nodeIdx 0 + w))) st
  else st

/-- The P2G accumulation of `particlesToMesh`: the node buffer is zeroed
(the source zeroes `this.nodes`, obtained from `getNodes()`), the weight
accumulator starts at zero, and the loop runs over every slot of the
position buffer. -/
def p2gAccum (mesh : Mesh) (ps : ParticleSystem) : List ℚ × List ℚ :=
  (List.range (ps.positions.length / 3)).foldl (p2gStep mesh ps)
    (List.replicate mesh.nodes.length 0, List.replicate (mesh.nodes.length / 3) 0)

/-- The final normalization loop of `particlesToMesh`: each node with a
positive accumulated weight has its 3 velocity components divided by it. -/
def p2gNormalize (acc weights : List ℚ) : List ℚ :=
  (List.range (acc.length / 3)).foldl (fun nb i =>
    if 0 < weights.getD i 0 then
      let a := nb.set (i * 3) (nb.getD (i * 3) 0 / weights.getD i 0)
      let b := a.set (i * 3 + 1) (a.getD (i * 3 + 1) 0 / weights.getD i 0)
      b.set (i * 3 + 2) (b.getD (i * 3 + 2) 0 / weights.getD i 0)
    else nb) acc

/-- `particlesToMesh()` (P2G): accumulate, normalize, and store.  The
source uses the node-position array `this.nodes` itself as the
accumulation buffer (it zeroes and overwrites `getNodes()`), then copies
it into `nodeVelocities` via `setNodeVelocities`; so both `nodes` and
`nodeVelocities` end up holding the normalized accumulator. -/
def particlesToMesh (mesh : Mesh) (ps : ParticleSystem) : Mesh :=
  let st := p2gAccum mesh ps
  let final := p2gNormalize st.1 st.2
  { mesh with nodes := final, nodeVelocities := final }

/-- Modelled only as a comparison foil for the capacity-versus-count
question: the same P2G accumulation restricted to the first `count`
particle slots.  This is NOT the source's loop, which runs over the whole
position buffer. -/
def p2gAccumCountOnly (mesh : Mesh) (ps : ParticleSystem) : List ℚ × List ℚ :=
  (List.range ps.count).foldl (p2gStep mesh ps)
    (List.replicate mesh.nodes.length 0, List.replicate (mesh.nodes.length / 3) 0)

/-- One particle slot of the G2P loop of `meshToParticles`: locate the
particle; on success return the barycentric interpolation of the 4 node
velocities, on failure `none` (slot untouched). -/
def g2pSlotVelocity (mesh : Mesh) (ps : ParticleSystem) (j : ℕ) : Option Vec3 :=
  let px := ps.positions.getD (j * 3) 0
  let py := ps.positions.getD (j * 3 + 1) 0
  let pz := ps.positions.getD (j * 3 + 2) 0
  let tetIndex := mesh.findContainingTetrahedron px py pz
  if 0 ≤ tetIndex then
    let t := tetIndex.toNat
    let tet := mesh.getTetrahedron t
    let bary := mesh.computeBarycentricCoordinates t px py pz
    some ((List.range 4).foldl (fun (v : Vec3) i =>
      let nodeIdx := tet.getD i 0
      let w := bary.getD i 0
      ⟨v.x + w * mesh.nodeVelocities.getD (nodeIdx * 3) 0,
       v.y + w * mesh.nodeVelocities.getD (nodeIdx * 3 + 1) 0,
       v.z + w * mesh.nodeVelocities.getD (nodeIdx * 3 + 2) 0⟩) ⟨0, 0, 0⟩)
  else none

/-- `meshToParticles()` (G2P): for every slot of the position buffer,
overwrite the slot's velocity with the interpolated grid velocity when
point location succeeds, leave it unchanged otherwise; finally
`setVelocities` writes the buffer back. -/
def meshToParticles (mesh : Mesh) (ps : ParticleSystem) : ParticleSystem :=
  let velocities := (List.range (ps.positions.length / 3)).foldl (fun acc j =>
    match g2pSlotVelocity mesh ps j with
    | some v => ((acc.set (j * 3) v.x).set (j * 3 + 1) v.y).set (j * 3 + 2) v.z
    | none => acc) ps.velocities
  (ps.setVelocities velocities).1

/-- `advectParticles()`: explicit Euler `position += velocity * dt` on
every slot of the position buffer, then `setPositions` writes it back. -/
def advectParticles (dt : ℚ) (ps : ParticleSystem) : ParticleSystem :=
  let positions := (List.range (ps.positions.length / 3)).foldl (fun acc j =>
    let a := acc.set (j * 3) (acc.getD (j * 3) 0 + ps.velocities.getD (j * 3) 0 * dt)
    let b := a.set (j * 3 + 1) (a.getD (j * 3 + 1) 0 + ps.velocities.getD (j * 3 + 1) 0 * dt)
    b.set (j * 3 + 2) (b.getD (j * 3 + 2) 0 + ps.velocities.getD (j * 3 + 2) 0 * dt))
    ps.positions
  (ps.setPositions positions).1

/-- The coefficient of restitution `0.3` of `handleCollisions`. -/
def restitution : ℚ := 3 / 10

/-- One axis of `handleCollisions`: clamp to the violated bound and
reflect the velocity scaled by the restitution. -/
def collideAxis (minB maxB pos vel : ℚ) : ℚ × ℚ :=
  if pos < minB then (minB, |vel| * restitution)
  else if maxB < pos then (maxB, -|vel| * restitution)
  else (pos, vel)

/-- `handleCollisions()`: per slot of the position buffer, resolve the
three axes independently, then write both buffers back. -/
def handleCollisions (domainMin domainMax : Vec3) (ps : ParticleSystem) : ParticleSystem :=
  let st := (List.range (ps.positions.length / 3)).foldl (fun (st : List ℚ × List ℚ) j =>
    let cx := collideAxis domainMin.x domainMax.x (st.1.getD (j * 3) 0) (st.2.getD (j * 3) 0)
    let cy := collideAxis domainMin.y domainMax.y (st.1.getD (j * 3 + 1) 0) (st.2.getD (j * 3 + 1) 0)
    let cz := collideAxis domainMin.z domainMax.z (st.1.getD (j * 3 + 2) 0) (st.2.getD (j * 3 + 2) 0)
    (((st.1.set (j * 3) cx.1).set (j * 3 + 1) cy.1).set (j * 3 + 2) cz.1,
     ((st.2.set (j * 3) cx.2).set (j * 3 + 1) cy.2).set (j * 3 + 2) cz.2))
    (ps.positions, ps.velocities)
  (((ps.setPositions st.1).1).setVelocities st.2).1

/-- JavaScript `v || fallback` on numbers: the fallback replaces `v`
exactly when `v` is zero (falsy). -/
def orDefault (v fallback : ℚ) : ℚ := if v = 0 then fallback else v

/-- The x-axis denominator of `approximateDivergence`:
`Math.abs(positions[1][0] - positions[0][0]) || 0.1`. -/
def divDx (positions : List Vec3) : ℚ :=
  orDefault |(positions.getD 1 default).x - (positions.getD 0 default).x| (1 / 10)

/-- The y-axis denominator of `approximateDivergence`:
`Math.abs(positions[2][1] - positions[0][1]) || 0.1`. -/
def divDy (positions : List Vec3) : ℚ :=
  orDefault |(positions.getD 2 default).y - (positions.getD 0 default).y| (1 / 10)

/-- The z-axis denominator of `approximateDivergence`:
`Math.abs(positions[3][2] - positions[0][2]) || 0.1`. -/
def divDz (positions : List Vec3) : ℚ :=
  orDefault |(positions.getD 3 default).z - (positions.getD 0 default).z| (1 / 10)

/-- `PressureSolver.approximateDivergence(positions, velocities)`:
one-sided finite differences between node 0 and nodes 1, 2, 3. -/
def approximateDivergence (positions velocities : List Vec3) : ℚ :=
  let dvx := ((velocities.getD 1 default).x - (velocities.getD 0 default).x) / divDx positions
  let dvy := ((velocities.getD 2 default).y - (velocities.getD 0 default).y) / divDy positions
  let dvz := ((velocities.getD 3 default).z - (velocities.getD 0 default).z) / divDz positions
  dvx + dvy + dvz

/-- `PressureSolver.getNeighbors(mesh, nodeIndex)`: every node sharing a
tetrahedron with `nodeIndex`, collected in `Set` insertion order (each
node once, `nodeIndex` itself excluded). -/
def getNeighbors (m : Mesh) (nodeIndex : ℕ) : List ℕ :=
  (List.range m.tetCount).foldl (fun acc t =>
    let tet := m.getTetrahedron t
    if nodeIndex ∈ tet then
      tet.foldl (fun acc2 n =>
        if n ≠ nodeIndex ∧ n ∉ acc2 then acc2 ++ [n] else acc2) acc
    else acc) []

/-- Solver iteration cap `maxIterations = 50`. -/
def maxIterations : ℕ := 50

/-- Solver tolerance `1e-4`. -/
def tolerance : ℚ := 1 / 10 ^ 4

/-- One Jacobi sweep of `conjugateGradient`: every node with at least one
neighbor gets `(Σ pressureOld[neighbor] - rhs[i]) / count`, reading only
the snapshot `p` (`pressureOld`); zero-neighbor nodes keep their value. -/
def jacobiSweep (m : Mesh) (rhs p : List ℚ) : List ℚ :=
  (List.range m.nodeCount).foldl (fun pr i =>
    let neighbors := getNeighbors m i
    let s := (neighbors.map (fun n => p.getD n 0)).sum
    if 0 < neighbors.length then
      pr.set i ((s - rhs.getD i 0) / neighbors.length)
    else pr) p

/-- The convergence measure of `conjugateGradient`: the maximum absolute
per-node change between two pressure vectors. -/
def maxAbsDiff (nodeCount : ℕ) (p q : List ℚ) : ℚ :=
  (List.range nodeCount).foldl (fun md i => max md |p.getD i 0 - q.getD i 0|) 0

/-- The iteration loop of `conjugateGradient`: up to `fuel` Jacobi sweeps,
stopping early when the max absolute change drops below `tolerance`. -/
def jacobiIter (m : Mesh) (rhs : List ℚ) : ℕ → List ℚ → List ℚ
  | 0, p => p
  | fuel + 1, p =>
      let p' := jacobiSweep m rhs p
      if maxAbsDiff m.nodeCount p' p < tolerance then p'
      else jacobiIter m rhs fuel p'

/-- The right-hand-side construction of `conjugateGradient`: a copy of
`divergence` whose first `nodeCount` entries are scaled by `dt`
(`rhs[i] *= dt`). -/
def scaleRhs (m : Mesh) (divergence : List ℚ) (dt : ℚ) : List ℚ :=
  (List.range m.nodeCount).foldl (fun r i => r.set i (r.getD i 0 * dt)) divergence

/-- `PressureSolver.conjugateGradient(mesh, divergence, pressure, dt)`:
scale the divergence copy by `dt` to form the right-hand side, then run
at most `maxIterations` Jacobi sweeps from the zero pressure vector. -/
def conjugateGradient (m : Mesh) (divergence : List ℚ) (dt : ℚ) : List ℚ :=
  jacobiIter m (scaleRhs m divergence dt) maxIterations (List.replicate m.nodeCount 0)

/-! ### Generic lemmas about the loop patterns of the embedding -/

/-- A fold whose step preserves the buffer length preserves it overall. -/
lemma foldl_length_eq {α : Type} (f : List ℚ → α → List ℚ)
    (h : ∀ r a, (f r a).length = r.length) :
    ∀ (l : List α) (acc : List ℚ), (l.foldl f acc).length = acc.length := by
  intro l
  induction l with
  | nil => intro acc; rfl
  | cons a t ih => intro acc; rw [List.foldl_cons, ih, h]

/-- Reading an index a `set` did not touch. -/
lemma getD_set_ne (l : List ℚ) (i j : ℕ) (hij : j ≠ i) (v d : ℚ) :
    (l.set j v).getD i d = l.getD i d := by
  simp [List.getD_eq_getElem?_getD, List.getElem?_set_ne hij]

/-- Reading the index a `set` wrote, when in range. -/
lemma getD_set_self (l : List ℚ) (i : ℕ) (hi : i < l.length) (v d : ℚ) :
    (l.set i v).getD i d = v := by
  simp [List.getD_eq_getElem?_getD, List.getElem?_set_self hi]

/-- A fold of guarded single-index writes leaves untouched indices alone. -/
lemma foldl_ite_set_getD_of_notmem (c : ℕ → Prop) [DecidablePred c] (G : ℕ → ℚ → ℚ) :
    ∀ (l : List ℕ) (acc : List ℚ) (i : ℕ), (∀ j ∈ l, j ≠ i) →
      ((l.foldl (fun r j => if c j then r.set j (G j (r.getD j 0)) else r) acc)).getD i 0
        = acc.getD i 0 := by
  intro l
  induction l with
  | nil => intro acc i _; rfl
  | cons a t ih =>
    intro acc i h
    rw [List.foldl_cons]
    rw [ih _ _ (fun j hj => h j (List.mem_cons_of_mem a hj))]
    by_cases hc : c a
    · rw [if_pos hc, getD_set_ne _ _ _ (h a (List.mem_cons_self a t)) _ _]
    · rw [if_neg hc]

/-- The guarded write fold preserves length. -/
lemma foldl_ite_set_length (c : ℕ → Prop) [DecidablePred c] (G : ℕ → ℚ → ℚ)
    (l : List ℕ) (acc : List ℚ) :
    ((l.foldl (fun r j => if c j then r.set j (G j (r.getD j 0)) else r) acc)).length
      = acc.length := by
  apply foldl_length_eq
  intro r a
  by_cases hc : c a
  · rw [if_pos hc, List.length_set]
  · rw [if_neg hc]

/-- One pass of guarded single-index writes over `List.range n`: each
index `i < n` in range of the buffer ends at `G i` applied to its own
starting value (every index is written at most once, by its own step). -/
lemma foldl_range_ite_set_getD (c : ℕ → Prop) [DecidablePred c] (G : ℕ → ℚ → ℚ) :
    ∀ (n : ℕ) (acc : List ℚ) (i : ℕ), i < n → i < acc.length →
      ((List.range n).foldl (fun r j => if c j then r.set j (G j (r.getD j 0)) else r) acc).getD i 0
        = if c i then G i (acc.getD i 0) else acc.getD i 0 := by
  intro n
  induction n with
  | zero => intro acc i hin; omega
  | succ n ih =>
    intro acc i hin hlen
    rw [List.range_succ, List.foldl_append, List.foldl_cons, List.foldl_nil]
    rcases Nat.lt_or_ge i n with h | h
    · have hne : n ≠ i := by omega
      by_cases hc : c n
      · rw [if_pos hc, getD_set_ne _ _ _ hne _ _, ih acc i h hlen]
      · rw [if_neg hc, ih acc i h hlen]
    · have hi : i = n := by omega
      subst hi
      have hpref : ((List.range i).foldl
          (fun r j => if c j then r.set j (G j (r.getD j 0)) else r) acc).getD i 0
            = acc.getD i 0 :=
        foldl_ite_set_getD_of_notmem c G _ acc i
          (fun j hj => by have := List.mem_range.mp hj; omega)
      have hplen : ((List.range i).foldl
          (fun r j => if c j then r.set j (G j (r.getD j 0)) else r) acc).length
            = acc.length := foldl_ite_set_length c G _ acc
      by_cases hc : c i
      · rw [if_pos hc, if_pos hc, getD_set_self _ _ (by omega) _ _, hpref]
      · rw [if_neg hc, if_neg hc, hpref]

/-- A fold of optional 3-entry slot writes leaves foreign slots alone. -/
lemma foldl_slot3_getD_of_notmem (g : ℕ → Option Vec3) :
    ∀ (l : List ℕ) (acc : List ℚ) (i : ℕ), (∀ t ∈ l, i < t * 3 ∨ t * 3 + 2 < i) →
      ((l.foldl (fun r t => match g t with
          | some v => ((r.set (t * 3) v.x).set (t * 3 + 1) v.y).set (t * 3 + 2) v.z
          | none => r) acc)).getD i 0 = acc.getD i 0 := by
  intro l
  induction l with
  | nil => intro acc i _; rfl
  | cons a t ih =>
    intro acc i h
    rw [List.foldl_cons]
    rw [ih _ _ (fun j hj => h j (List.mem_cons_of_mem a hj))]
    have ha := h a (List.mem_cons_self a t)
    rcases hg : g a with _ | v
    · rfl
    · simp only []
      rw [getD_set_ne _ _ _ (by omega) _ _, getD_set_ne _ _ _ (by omega) _ _,
        getD_set_ne _ _ _ (by omega) _ _]

/-- The optional slot-write fold preserves length. -/
lemma foldl_slot3_length (g : ℕ → Option Vec3) (l : List ℕ) (acc : List ℚ) :
    ((l.foldl (fun r t => match g t with
        | some v => ((r.set (t * 3) v.x).set (t * 3 + 1) v.y).set (t * 3 + 2) v.z
        | none => r) acc)).length = acc.length := by
  apply foldl_length_eq
  intro r a
  rcases g a with _ | v
  · rfl
  · simp [List.length_set]

/-- One pass of optional 3-entry slot writes over `List.range n`: slot
`j < n` (in range of the buffer) ends at the written triple when `g j`
fires and keeps its starting values otherwise. -/
lemma foldl_range_slot3_getD (g : ℕ → Option Vec3) :
    ∀ (n : ℕ) (acc : List ℚ) (j k : ℕ), j < n → k < 3 → j * 3 + 2 < acc.length →
      ((List.range n).foldl (fun r t => match g t with
          | some v => ((r.set (t * 3) v.x).set (t * 3 + 1) v.y).set (t * 3 + 2) v.z
          | none => r) acc).getD (j * 3 + k) 0
        = match g j with
          | some v => ([v.x, v.y, v.z] : List ℚ).getD k 0
          | none => acc.getD (j * 3 + k) 0 := by
  intro n
  induction n with
  | zero => intro acc j k hj; omega
  | succ n ih =>
    intro acc j k hj hk hlen
    rw [List.range_succ, List.foldl_append, List.foldl_cons, List.foldl_nil]
    rcases Nat.lt_or_ge j n with h | h
    · rcases hg : g n with _ | v
      · rw [ih acc j k h hk hlen]
      · simp only []
        rw [getD_set_ne _ _ _ (by omega) _ _, getD_set_ne _ _ _ (by omega) _ _,
          getD_set_ne _ _ _ (by omega) _ _, ih acc j k h hk hlen]
    · have hjn : j = n := by omega
      subst hjn
      have hpref : ∀ i, j * 3 ≤ i → i ≤ j * 3 + 2 →
          ((List.range j).foldl (fun r t => match g t with
              | some v => ((r.set (t * 3) v.x).set (t * 3 + 1) v.y).set (t * 3 + 2) v.z
              | none => r) acc).getD i 0 = acc.getD i 0 := by
        intro i h1 h2
        exact foldl_slot3_getD_of_notmem g _ acc i
          (fun t ht => by have := List.mem_range.mp ht; omega)
      have hplen : ((List.range j).foldl (fun r t => match g t with
          | some v => ((r.set (t * 3) v.x).set (t * 3 + 1) v.y).set (t * 3 + 2) v.z
          | none => r) acc).length = acc.length := foldl_slot3_length g _ acc
      rcases hg : g j with _ | v
      · exact hpref _ (by omega) (by omega)
      · simp only []
        interval_cases k
        · have e : j * 3 + 0 = j * 3 := rfl
          rw [e, getD_set_ne _ _ _ (by omega) _ _, getD_set_ne _ _ _ (by omega) _ _,
            getD_set_self _ _ (by rw [hplen]; omega) _ _]
          rfl
        · rw [getD_set_ne _ _ _ (by omega) _ _,
            getD_set_self _ _ (by rw [List.length_set, hplen]; omega) _ _]
          rfl
        · rw [getD_set_self _ _ (by rw [List.length_set, List.length_set, hplen]; omega) _ _]
          rfl

/-- `List.find?` over `List.range n`: the result is the least index
satisfying the predicate. -/
lemma find_range_eq_some_iff (p : ℕ → Bool) :
    ∀ (n t : ℕ), (List.range n).find? p = some t
      ↔ t < n ∧ p t = true ∧ ∀ s < t, p s = false := by
  intro n
  induction n with
  | zero =>
    intro t
    simp [List.range_zero]
  | succ n ih =>
    intro t
    rw [List.range_succ, List.find?_append]
    constructor
    · intro h
      rcases hpre : (List.range n).find? p with _ | t'
      · rw [hpre, Option.none_or] at h
        have hall : ∀ s < n, p s = false := by
          intro s hs
          have := List.find?_eq_none.mp hpre s (List.mem_range.mpr hs)
          simpa using this
        by_cases hp : p n
        · rw [List.find?_cons_of_pos _ hp] at h
          have ht : t = n := by injection h with h; omega
          subst ht
          exact ⟨by omega, hp, hall⟩
        · rw [List.find?_cons_of_neg _ hp, List.find?_nil] at h
          exact absurd h (by simp)
      · rw [hpre, Option.or_some] at h
        have htt : t' = t := by injection h
        have hih := (ih t').mp hpre
        rw [← htt]
        exact ⟨by omega, hih.2.1, hih.2.2⟩
    · rintro ⟨ht, hp, hmin⟩
      rcases Nat.lt_or_ge t n with h | h
      · rw [(ih t).mpr ⟨h, hp, hmin⟩, Option.or_some]
      · have htn : t = n := by omega
        subst htn
        have hpre : (List.range t).find? p = none :=
          List.find?_eq_none.mpr (fun s hs => by
            simp [hmin s (List.mem_range.mp hs)])
        rw [hpre, Option.none_or, List.find?_cons_of_pos _ hp]

/-- `List.find?` over `List.range n` fails exactly when no index
satisfies the predicate. -/
lemma find_range_eq_none_iff (p : ℕ → Bool) (n : ℕ) :
    (List.range n).find? p = none ↔ ∀ t < n, p t = false := by
  rw [List.find?_eq_none]
  constructor
  · intro h t ht
    simpa using h t (List.mem_range.mpr ht)
  · intro h t ht
    simp [h t (List.mem_range.mp ht)]

/-- Flat-map of constant-length blocks over `List.range`. -/
lemma length_flatMap_range {α : Type} (f : ℕ → List α) (c : ℕ)
    (h : ∀ i, (f i).length = c) :
    ∀ n : ℕ, ((List.range n).flatMap f).length = n * c := by
  intro n
  induction n with
  | zero => simp
  | succ n ih =>
    rw [List.range_succ, List.flatMap_append, List.length_append, ih]
    simp [h]
    ring

/-- Triple nested flat-map of constant-length blocks over ranges. -/
lemma length_flatMap_range3 {α : Type} (f : ℕ → ℕ → ℕ → List α) (c : ℕ)
    (h : ∀ k j i, (f k j i).length = c) (n1 n2 n3 : ℕ) :
    ((List.range n1).flatMap fun k =>
      (List.range n2).flatMap fun j =>
        (List.range n3).flatMap fun i => f k j i).length = n1 * n2 * n3 * c := by
  rw [length_flatMap_range _ (n2 * n3 * c)]
  · ring
  · intro k
    rw [length_flatMap_range _ (n3 * c)]
    · ring
    · intro j
      rw [length_flatMap_range _ c (h k j)]

/-- Node buffer length of `createRegularMesh`. -/
lemma createRegularMesh_nodes_length (dmin dmax : Vec3) (nx ny nz : ℕ) :
    (createRegularMesh dmin dmax nx ny nz).nodes.length = (nz + 1) * (ny + 1) * (nx + 1) * 3 := by
  simp only [createRegularMesh]
  refine length_flatMap_range3 _ 3 ?_ _ _ _
  intro k j i
  rfl

/-- `nodeCount` of `createRegularMesh`. -/
lemma createRegularMesh_nodeCount (dmin dmax : Vec3) (nx ny nz : ℕ) :
    (createRegularMesh dmin dmax nx ny nz).nodeCount = (nx + 1) * (ny + 1) * (nz + 1) := by
  rw [Mesh.nodeCount, createRegularMesh_nodes_length, Nat.mul_div_cancel _ (by norm_num)]
  ring

/-- `tetCount` of `createRegularMesh`. -/
lemma createRegularMesh_tetCount (dmin dmax : Vec3) (nx ny nz : ℕ) :
    (createRegularMesh dmin dmax nx ny nz).tetCount = 5 * (nx * ny * nz) := by
  rw [Mesh.tetCount]
  have hlen : (createRegularMesh dmin dmax nx ny nz).tetrahedra.length = nz * ny * nx * 20 := by
    simp only [createRegularMesh]
    refine length_flatMap_range3 _ 20 ?_ _ _ _
    intro k j i
    rfl
  rw [hlen]
  have he : nz * ny * nx * 20 = 5 * (nx * ny * nz) * 4 := by ring
  rw [he, Nat.mul_div_cancel _ (by norm_num)]

/-- Node velocities of `createRegularMesh` are all zero. -/
lemma createRegularMesh_velocities_zero (dmin dmax : Vec3) (nx ny nz : ℕ) :
    ∀ v ∈ (createRegularMesh dmin dmax nx ny nz).nodeVelocities, v = 0 := by
  intro v hv
  simp only [createRegularMesh] at hv
  exact List.eq_of_mem_replicate hv

/-! ### Concrete instances used as witnesses and counterexamples -/

/-- A mesh holding the single unit tetrahedron with vertices at the
origin and the three axis unit points. -/
def unitTetMesh : Mesh where
  nodes := [0,0,0, 1,0,0, 0,1,0, 0,0,1]
  nodeVelocities := List.replicate 12 0
  tetrahedra := [0,1,2,3]

/-- A mesh whose tetrahedron 0 is fully degenerate (all four vertices at
the origin) and whose tetrahedron 1 is the non-degenerate unit
tetrahedron. -/
def degenFirstMesh : Mesh where
  nodes := [0,0,0, 0,0,0, 0,0,0, 0,0,0, 0,0,0, 1,0,0, 0,1,0, 0,0,1]
  nodeVelocities := List.replicate 24 0
  tetrahedra := [0,1,2,3, 4,5,6,7]

/-- A particle set with zero capacity (empty buffers). -/
def emptyParticles : ParticleSystem := ParticleSystem.init 0

/-- A particle set of capacity 3 with one live particle (count 1) at the
origin carrying velocity `(6,0,0)`; the two inactive slots sit at the
origin with zero velocity, as after `initialize`. -/
def dilutedParticles : ParticleSystem where
  maxParticles := 3
  count := 1
  positions := List.replicate 9 0
  velocities := [6,0,0, 0,0,0, 0,0,0]

/-! ### C4 — zero-cell resolution is not rejected by construction -/

/-- C4: mesh construction with an invalid zero-cell resolution
(`nx = 0`) is NOT rejected: `createRegularMesh` is total and at
`(0, 1, 1)` it returns a mesh with 4 nodes and 0 tetrahedra instead of
failing (the source has no validation path at all). -/
theorem c4_zero_resolution_not_rejected :
    (createRegularMesh ⟨-1,-1,-1⟩ ⟨1,1,1⟩ 0 1 1).tetCount = 0 ∧
    (createRegularMesh ⟨-1,-1,-1⟩ ⟨1,1,1⟩ 0 1 1).nodeCount = 4 := by
  rw [createRegularMesh_tetCount, createRegularMesh_nodeCount]
  norm_num

/-! ### C5 — node and tetrahedron counts of mesh construction -/

/-- C5: for every resolution with `nx, ny, nz ≥ 1`, construction yields
`(nx+1)(ny+1)(nz+1)` nodes and `5·nx·ny·nz` tetrahedra, and every node
velocity is initialized to zero. -/
theorem c5_mesh_construction_counts (dmin dmax : Vec3) (nx ny nz : ℕ)
    (_hx : 1 ≤ nx) (_hy : 1 ≤ ny) (_hz : 1 ≤ nz) :
    (createRegularMesh dmin dmax nx ny nz).nodeCount = (nx + 1) * (ny + 1) * (nz + 1) ∧
    (createRegularMesh dmin dmax nx ny nz).tetCount = 5 * (nx * ny * nz) ∧
    ∀ v ∈ (createRegularMesh dmin dmax nx ny nz).nodeVelocities, v = 0 :=
  ⟨createRegularMesh_nodeCount dmin dmax nx ny nz,
   createRegularMesh_tetCount dmin dmax nx ny nz,
   createRegularMesh_velocities_zero dmin dmax nx ny nz⟩

/-- C5 witness: the `(8,8,8)` instance yields 729 nodes and 2560
tetrahedra. -/
theorem c5_mesh_construction_counts_witness :
    (createRegularMesh ⟨-1,-1,-1⟩ ⟨1,1,1⟩ 8 8 8).nodeCount = 729 ∧
    (createRegularMesh ⟨-1,-1,-1⟩ ⟨1,1,1⟩ 8 8 8).tetCount = 2560 := by
  have h := c5_mesh_construction_counts ⟨-1,-1,-1⟩ ⟨1,1,1⟩ 8 8 8
    (by norm_num) (by norm_num) (by norm_num)
  exact ⟨h.1.trans (by norm_num), h.2.1.trans (by norm_num)⟩

/-! ### C9 — particle-count overflow truncates with a warning -/

/-- C9: assigning more position entries than capacity truncates to
capacity, leaves `count` at `maxParticles`, and raises the warning flag;
the operation is total (never throws). -/
theorem c9_overflow_truncates (maxParticles : ℕ) (positions : List ℚ)
    (h : positions.length = (maxParticles + 5) * 3) :
    ((ParticleSystem.init maxParticles).setPositions positions).2 = true ∧
    ((ParticleSystem.init maxParticles).setPositions positions).1.count = maxParticles ∧
    ((ParticleSystem.init maxParticles).setPositions positions).1.positions
      = positions.take (maxParticles * 3) := by
  have hgt : maxParticles * 3 < positions.length := by omega
  have htk : (positions.take (maxParticles * 3)).length = maxParticles * 3 := by
    rw [List.length_take]
    omega
  simp only [ParticleSystem.setPositions, ParticleSystem.init, bufferSet]
  rw [if_pos hgt]
  refine ⟨by simp [hgt], ?_, ?_⟩
  · rw [htk, Nat.mul_div_cancel _ (by norm_num)]
  · rw [htk, List.drop_eq_nil_of_le (by simp), List.append_nil]

/-- C9 witness: capacity 2, 7 particles assigned: warned, `count = 2`,
buffer truncated to the first 6 entries. -/
theorem c9_overflow_truncates_witness :
    ((ParticleSystem.init 2).setPositions (List.replicate 21 5)).2 = true ∧
    ((ParticleSystem.init 2).setPositions (List.replicate 21 5)).1.count = 2 := by
  have h := c9_overflow_truncates 2 (List.replicate 21 5) (by simp)
  exact ⟨h.1, h.2.1⟩

/-! ### C1 — P2G destroys the node-position array (code bug) -/

/-- C1 (bug evidence): one P2G phase on the unit-tetrahedron mesh with an
empty particle buffer zeroes the node-position array: the source resets
and accumulates into `getNodes()` (the positions) instead of
`getNodeVelocities()`, so after P2G the positions no longer equal their
construction-time values, and `nodeVelocities` is a copy of the destroyed
position buffer. -/
theorem c1_p2g_overwrites_positions :
    (particlesToMesh unitTetMesh emptyParticles).nodes = List.replicate 12 0 ∧
    (particlesToMesh unitTetMesh emptyParticles).nodes ≠ unitTetMesh.nodes ∧
    (particlesToMesh unitTetMesh emptyParticles).nodeVelocities
      = (particlesToMesh unitTetMesh emptyParticles).nodes := by
  have hz : (particlesToMesh unitTetMesh emptyParticles).nodes = List.replicate 12 0 := by
    norm_num [particlesToMesh, p2gAccum, p2gNormalize, p2gStep, emptyParticles,
      ParticleSystem.init, unitTetMesh, List.range, List.range.loop,
      List.replicate, List.getD]
  refine ⟨hz, ?_, rfl⟩
  rw [hz]
  intro hcontra
  have h3 : (List.replicate 12 (0 : ℚ)).getD 3 0 = unitTetMesh.nodes.getD 3 0 := by
    rw [hcontra]
  norm_num [unitTetMesh, List.replicate, List.getD] at h3

/-! ### C10 — per-particle loops run over capacity, not count -/

/-- C10: every per-particle loop of the step phases (P2G, G2P, advection,
collision) is driven by the position buffer's capacity and ignores
`count` entirely; concretely, with capacity 3 and `count = 1`, the two
inactive origin slots each contribute barycentric weight `0.25` (with
zero velocity) to the nodes of the tetrahedron located for the origin,
diluting the normalized node velocities from `(6,0,0)` to `(2,0,0)`
compared to a count-bounded loop. -/
theorem c10_loops_over_capacity :
    (∀ (mesh : Mesh) (ps : ParticleSystem) (c : ℕ) (dt : ℚ) (dmin dmax : Vec3),
      particlesToMesh mesh { ps with count := c } = particlesToMesh mesh ps ∧
      (meshToParticles mesh { ps with count := c }).velocities
        = (meshToParticles mesh ps).velocities ∧
      (meshToParticles mesh { ps with count := c }).positions
        = (meshToParticles mesh ps).positions ∧
      advectParticles dt { ps with count := c } = advectParticles dt ps ∧
      handleCollisions dmin dmax { ps with count := c } = handleCollisions dmin dmax ps) ∧
    dilutedParticles.count = 1 ∧
    dilutedParticles.maxParticles = 3 ∧
    (p2gAccum unitTetMesh dilutedParticles).2 = [3/4, 3/4, 3/4, 3/4] ∧
    (p2gAccumCountOnly unitTetMesh dilutedParticles).2 = [1/4, 1/4, 1/4, 1/4] ∧
    (particlesToMesh unitTetMesh dilutedParticles).nodeVelocities
      = [2,0,0, 2,0,0, 2,0,0, 2,0,0] ∧
    p2gNormalize (p2gAccumCountOnly unitTetMesh dilutedParticles).1
        (p2gAccumCountOnly unitTetMesh dilutedParticles).2
      = [6,0,0, 6,0,0, 6,0,0, 6,0,0] := by
  have hA : p2gAccum unitTetMesh dilutedParticles
      = ([3/2,0,0, 3/2,0,0, 3/2,0,0, 3/2,0,0], [3/4, 3/4, 3/4, 3/4]) := by
    norm_num [p2gAccum, p2gStep, dilutedParticles, unitTetMesh,
      Mesh.findContainingTetrahedron, Mesh.computeBarycentricCoordinates,
      Mesh.getTetrahedron, Mesh.tetCount, nodePos, tetrahedronVolume, baryNonneg,
      degenEps, List.find?, List.range, List.range.loop, List.replicate, List.getD]
  have hB : p2gAccumCountOnly unitTetMesh dilutedParticles
      = ([3/2,0,0, 3/2,0,0, 3/2,0,0, 3/2,0,0], [1/4, 1/4, 1/4, 1/4]) := by
    norm_num [p2gAccumCountOnly, p2gStep, dilutedParticles, unitTetMesh,
      Mesh.findContainingTetrahedron, Mesh.computeBarycentricCoordinates,
      Mesh.getTetrahedron, Mesh.tetCount, nodePos, tetrahedronVolume, baryNonneg,
      degenEps, List.find?, List.range, List.range.loop, List.replicate, List.getD]
  refine ⟨fun mesh ps c dt dmin dmax => ⟨rfl, rfl, rfl, rfl, rfl⟩, rfl, rfl, ?_, ?_, ?_, ?_⟩
  · rw [hA]
  · rw [hB]
  · show p2gNormalize (p2gAccum unitTetMesh dilutedParticles).1
        (p2gAccum unitTetMesh dilutedParticles).2 = _
    rw [hA]
    norm_num [p2gNormalize, List.range, List.range.loop, List.getD]
  · rw [hB]
    norm_num [p2gNormalize, List.range, List.range.loop, List.getD]

/-! ### C3 — spacing floor is only a zero fallback (corrected) -/

/-- Concrete tetrahedron vertex positions with x-spacing `1/20`, smaller
than `0.1`. -/
def thinPositions : List Vec3 := [⟨0,0,0⟩, ⟨1/20,0,0⟩, ⟨0,1,0⟩, ⟨0,0,1⟩]

/-- Concrete node velocities with a unit x-velocity difference between
nodes 0 and 1. -/
def thinVelocities : List Vec3 := [⟨0,0,0⟩, ⟨1,0,0⟩, ⟨0,0,0⟩, ⟨0,0,0⟩]

/-- C3 counterexample: on `thinPositions` the x denominator is `1/20`,
which is below `0.1` and is used as-is (no floor); the divergence comes
out `20`, where a true `0.1` floor would give `10`. -/
theorem c3_counterexample :
    divDx thinPositions = 1/20 ∧ ¬ ((1:ℚ)/10 ≤ divDx thinPositions) ∧
    approximateDivergence thinPositions thinVelocities = 20 := by
  norm_num [divDx, divDy, divDz, orDefault, approximateDivergence,
    thinPositions, thinVelocities, List.getD, abs_of_nonneg]

/-- The `|| 0.1` fallback is positive. -/
lemma orDefault_abs_pos (v : ℚ) : 0 < orDefault |v| (1/10) := by
  unfold orDefault
  split
  · norm_num
  · next h => exact lt_of_le_of_ne (abs_nonneg v) (Ne.symm h)

/-- The fallback fires exactly on a zero argument. -/
lemma orDefault_abs_of_zero (v : ℚ) (h : v = 0) : orDefault |v| (1/10) = 1/10 := by
  simp [orDefault, h]

/-- A nonzero argument passes through the `||` untouched. -/
lemma orDefault_abs_of_ne (v : ℚ) (h : v ≠ 0) : orDefault |v| (1/10) = |v| := by
  simp [orDefault, abs_eq_zero, h]

/-- C3 amended: each axis denominator of `approximateDivergence` is
positive and equals the absolute vertex spacing whenever that spacing is
nonzero; `0.1` is substituted exactly when the spacing is zero — a zero
fallback, not a minimum floor. -/
theorem c3_denominators_zero_fallback (positions : List Vec3) :
    (0 < divDx positions ∧ 0 < divDy positions ∧ 0 < divDz positions) ∧
    ((positions.getD 1 default).x - (positions.getD 0 default).x = 0 →
      divDx positions = 1/10) ∧
    ((positions.getD 1 default).x - (positions.getD 0 default).x ≠ 0 →
      divDx positions = |(positions.getD 1 default).x - (positions.getD 0 default).x|) ∧
    ((positions.getD 2 default).y - (positions.getD 0 default).y = 0 →
      divDy positions = 1/10) ∧
    ((positions.getD 2 default).y - (positions.getD 0 default).y ≠ 0 →
      divDy positions = |(positions.getD 2 default).y - (positions.getD 0 default).y|) ∧
    ((positions.getD 3 default).z - (positions.getD 0 default).z = 0 →
      divDz positions = 1/10) ∧
    ((positions.getD 3 default).z - (positions.getD 0 default).z ≠ 0 →
      divDz positions = |(positions.getD 3 default).z - (positions.getD 0 default).z|) :=
  ⟨⟨orDefault_abs_pos _, orDefault_abs_pos _, orDefault_abs_pos _⟩,
   fun h => orDefault_abs_of_zero _ h, fun h => orDefault_abs_of_ne _ h,
   fun h => orDefault_abs_of_zero _ h, fun h => orDefault_abs_of_ne _ h,
   fun h => orDefault_abs_of_zero _ h, fun h => orDefault_abs_of_ne _ h⟩

/-- C3 amended witness: on the thin tetrahedron the x spacing is nonzero,
so the denominator is the spacing itself. -/
theorem c3_denominators_zero_fallback_witness :
    divDx thinPositions = |(1:ℚ)/20 - 0| := by
  have hne : (thinPositions.getD 1 default).x - (thinPositions.getD 0 default).x ≠ 0 := by
    norm_num [thinPositions, List.getD]
  have h := (c3_denominators_zero_fallback thinPositions).2.2.1 hne
  rw [h]
  norm_num [thinPositions, List.getD]

/-! ### C2 — point location (corrected: degenerate tetrahedra match) -/

/-- C2 counterexample: on `degenFirstMesh`, the query `(1/8,1/8,1/8)`
lies strictly inside the non-degenerate tetrahedron 1, yet
`findContainingTetrahedron` returns the degenerate tetrahedron 0 (its
centroid coordinates `(0.25,...)` pass the nonnegativity test first). -/
theorem c2_counterexample :
    degenFirstMesh.findContainingTetrahedron (1/8) (1/8) (1/8) = 0 ∧
    |degenFirstMesh.tetVolume 0| < degenEps ∧
    degenEps ≤ |degenFirstMesh.tetVolume 1| ∧
    baryNonneg (degenFirstMesh.computeBarycentricCoordinates 1 (1/8) (1/8) (1/8)) = true := by
  norm_num [degenFirstMesh, Mesh.findContainingTetrahedron, Mesh.tetCount,
    Mesh.computeBarycentricCoordinates, Mesh.getTetrahedron, Mesh.tetVolume, nodePos,
    tetrahedronVolume, baryNonneg, degenEps, List.find?, List.range, List.range.loop,
    List.replicate, List.getD, abs_zero, abs_of_nonneg]

/-- C2 amended: `findContainingTetrahedron` returns the smallest index
whose four barycentric coordinates are all nonnegative (degenerate
tetrahedra always qualify, via their `(0.25,...)` fallback coordinates),
and `-1` exactly when no tetrahedron qualifies; it offers no protection
against selecting a degenerate tetrahedron ahead of a non-degenerate
one. -/
theorem c2_find_first_match (m : Mesh) (x y z : ℚ) :
    (∀ t : ℕ, m.findContainingTetrahedron x y z = (t : Int) →
      t < m.tetCount ∧ baryNonneg (m.computeBarycentricCoordinates t x y z) = true ∧
      ∀ s < t, baryNonneg (m.computeBarycentricCoordinates s x y z) = false) ∧
    (m.findContainingTetrahedron x y z = -1 ↔
      ∀ t < m.tetCount, baryNonneg (m.computeBarycentricCoordinates t x y z) = false) := by
  unfold Mesh.findContainingTetrahedron
  rcases hfind : (List.range m.tetCount).find?
      (fun t => baryNonneg (m.computeBarycentricCoordinates t x y z)) with _ | t0
  · simp only [hfind]
    constructor
    · intro t ht
      omega
    · constructor
      · intro _
        exact (find_range_eq_none_iff _ _).mp hfind
      · intro _
        trivial
  · simp only [hfind]
    have hfacts := (find_range_eq_some_iff
      (fun t => baryNonneg (m.computeBarycentricCoordinates t x y z)) m.tetCount t0).mp hfind
    constructor
    · intro t ht
      have htt : t = t0 := by omega
      subst htt
      exact ⟨hfacts.1, hfacts.2.1, fun s hs => hfacts.2.2 s hs⟩
    · constructor
      · intro hcontra
        omega
      · intro hall
        have := hall t0 hfacts.1
        rw [hfacts.2.1] at this
        cases this
    
/-- C2 amended witness: on the unit tetrahedron mesh the query
`(1/8,1/8,1/8)` is located in tetrahedron 0, which is a valid index with
nonnegative barycentric coordinates. -/
theorem c2_find_first_match_witness :
    0 < unitTetMesh.tetCount ∧
    baryNonneg (unitTetMesh.computeBarycentricCoordinates 0 (1/8) (1/8) (1/8)) = true := by
  have hf : unitTetMesh.findContainingTetrahedron (1/8) (1/8) (1/8) = ((0:ℕ) : Int) := by
    norm_num [unitTetMesh, Mesh.findContainingTetrahedron, Mesh.tetCount,
      Mesh.computeBarycentricCoordinates, Mesh.getTetrahedron, nodePos,
      tetrahedronVolume, baryNonneg, degenEps, List.find?, List.range, List.range.loop,
      List.getD, abs_zero, abs_of_nonneg]
  have h := (c2_find_first_match unitTetMesh (1/8) (1/8) (1/8)).1 0 hf
  exact ⟨h.1, h.2.1⟩

/-! ### C8 — algebraic properties of barycentric coordinates -/

/-- The four sub-volumes at any query point sum to the full volume. -/
lemma volume_sum_split (p q0 q1 q2 q3 : Vec3) :
    tetrahedronVolume p q1 q2 q3 + tetrahedronVolume q0 p q2 q3
      + tetrahedronVolume q0 q1 p q3 + tetrahedronVolume q0 q1 q2 p
      = tetrahedronVolume q0 q1 q2 q3 := by
  unfold tetrahedronVolume
  ring

/-- A tetrahedron with two equal vertices has zero volume (slots 1,2). -/
lemma volume_repeat12 (a b c : Vec3) : tetrahedronVolume a a b c = 0 := by
  unfold tetrahedronVolume; ring

/-- Zero volume on equal vertices in slots 1,3. -/
lemma volume_repeat13 (a b c : Vec3) : tetrahedronVolume a b a c = 0 := by
  unfold tetrahedronVolume; ring

/-- Zero volume on equal vertices in slots 1,4. -/
lemma volume_repeat14 (a b c : Vec3) : tetrahedronVolume a b c a = 0 := by
  unfold tetrahedronVolume; ring

/-- Zero volume on equal vertices in slots 2,3. -/
lemma volume_repeat23 (a b c : Vec3) : tetrahedronVolume a b b c = 0 := by
  unfold tetrahedronVolume; ring

/-- Zero volume on equal vertices in slots 2,4. -/
lemma volume_repeat24 (a b c : Vec3) : tetrahedronVolume a b c b = 0 := by
  unfold tetrahedronVolume; ring

/-- Zero volume on equal vertices in slots 3,4. -/
lemma volume_repeat34 (a b c : Vec3) : tetrahedronVolume a b c c = 0 := by
  unfold tetrahedronVolume; ring

/-- C8: for every mesh and tetrahedron index, (i) the four barycentric
coordinates of any query point sum to exactly 1 (in both the degenerate
and the regular branch); (ii) when the tetrahedron is non-degenerate
(`|volume| ≥ 1e-10`), the coordinates of its own vertex `j` form the
one-hot vector with 1 in slot `j`; (iii) any point passing the
containment test has all four coordinates in `[0,1]`. -/
theorem c8_barycentric_properties (m : Mesh) (t : ℕ) :
    (∀ x y z, (m.computeBarycentricCoordinates t x y z).sum = 1) ∧
    (degenEps ≤ |m.tetVolume t| →
      ∀ j < 4,
        (m.computeBarycentricCoordinates t
            (nodePos m.nodes ((m.getTetrahedron t).getD j 0)).x
            (nodePos m.nodes ((m.getTetrahedron t).getD j 0)).y
            (nodePos m.nodes ((m.getTetrahedron t).getD j 0)).z).getD j 0 = 1 ∧
        ∀ i < 4, i ≠ j →
          (m.computeBarycentricCoordinates t
              (nodePos m.nodes ((m.getTetrahedron t).getD j 0)).x
              (nodePos m.nodes ((m.getTetrahedron t).getD j 0)).y
              (nodePos m.nodes ((m.getTetrahedron t).getD j 0)).z).getD i 0 = 0) ∧
    (∀ x y z, baryNonneg (m.computeBarycentricCoordinates t x y z) = true →
      ∀ b ∈ m.computeBarycentricCoordinates t x y z, 0 ≤ b ∧ b ≤ 1) := by
  simp only [Mesh.computeBarycentricCoordinates]
  set p0 := nodePos m.nodes ((m.getTetrahedron t).getD 0 0) with hp0
  set p1 := nodePos m.nodes ((m.getTetrahedron t).getD 1 0) with hp1
  set p2 := nodePos m.nodes ((m.getTetrahedron t).getD 2 0) with hp2
  set p3 := nodePos m.nodes ((m.getTetrahedron t).getD 3 0) with hp3
  set vol := tetrahedronVolume p0 p1 p2 p3 with hvol
  have hvt : m.tetVolume t = vol := rfl
  have hsum : ∀ x y z : ℚ, ¬ (|vol| < degenEps) →
      tetrahedronVolume ⟨x, y, z⟩ p1 p2 p3 / vol + tetrahedronVolume p0 ⟨x, y, z⟩ p2 p3 / vol
        + tetrahedronVolume p0 p1 ⟨x, y, z⟩ p3 / vol
        + tetrahedronVolume p0 p1 p2 ⟨x, y, z⟩ / vol = 1 := by
    intro x y z hnd
    have hvne : vol ≠ 0 := by
      intro hv
      rw [hv] at hnd
      simp [degenEps] at hnd
    rw [div_add_div_same, div_add_div_same, div_add_div_same, volume_sum_split]
    exact div_self hvne
  refine ⟨?_, ?_, ?_⟩
  · intro x y z
    by_cases hnd : |vol| < degenEps
    · rw [if_pos hnd]
      norm_num
    · rw [if_neg hnd]
      have := hsum x y z hnd
      simp only [List.sum_cons, List.sum_nil]
      linarith
  · intro hdeg j hj
    have hnd : ¬ (|vol| < degenEps) := by
      rw [hvt] at hdeg
      exact not_lt.mpr hdeg
    have hvne : vol ≠ 0 := by
      intro hv
      rw [hvt, hv] at hdeg
      simp only [abs_zero] at hdeg
      rw [degenEps] at hdeg
      linarith
    rw [if_neg hnd]
    interval_cases j
    · rw [← hp0, show (⟨p0.x, p0.y, p0.z⟩ : Vec3) = p0 from rfl]
      constructor
      · simp only [List.getD_eq_getElem?_getD, List.getElem?_cons_zero, Option.getD_some]
        rw [← hvol]
        exact div_self hvne
      · intro i hi hij
        interval_cases i
        · omega
        · simp only [List.getD_eq_getElem?_getD, List.getElem?_cons_succ,
            List.getElem?_cons_zero, Option.getD_some]
          rw [volume_repeat12, zero_div]
        · simp only [List.getD_eq_getElem?_getD, List.getElem?_cons_succ,
            List.getElem?_cons_zero, Option.getD_some]
          rw [volume_repeat13, zero_div]
        · simp only [List.getD_eq_getElem?_getD, List.getElem?_cons_succ,
            List.getElem?_cons_zero, Option.getD_some]
          rw [volume_repeat14, zero_div]
    · rw [← hp1, show (⟨p1.x, p1.y, p1.z⟩ : Vec3) = p1 from rfl]
      constructor
      · simp only [List.getD_eq_getElem?_getD, List.getElem?_cons_succ,
          List.getElem?_cons_zero, Option.getD_some]
        rw [← hvol]
        exact div_self hvne
      · intro i hi hij
        interval_cases i
        · simp only [List.getD_eq_getElem?_getD, List.getElem?_cons_zero, Option.getD_some]
          rw [volume_repeat12, zero_div]
        · omega
        · simp only [List.getD_eq_getElem?_getD, List.getElem?_cons_succ,
            List.getElem?_cons_zero, Option.getD_some]
          rw [volume_repeat23, zero_div]
        · simp only [List.getD_eq_getElem?_getD, List.getElem?_cons_succ,
            List.getElem?_cons_zero, Option.getD_some]
          rw [volume_repeat24, zero_div]
    · rw [← hp2, show (⟨p2.x, p2.y, p2.z⟩ : Vec3) = p2 from rfl]
      constructor
      · simp only [List.getD_eq_getElem?_getD, List.getElem?_cons_succ,
          List.getElem?_cons_zero, Option.getD_some]
        rw [← hvol]
        exact div_self hvne
      · intro i hi hij
        interval_cases i
        · simp only [List.getD_eq_getElem?_getD, List.getElem?_cons_zero, Option.getD_some]
          rw [volume_repeat13, zero_div]
        · simp only [List.getD_eq_getElem?_getD, List.getElem?_cons_succ,
            List.getElem?_cons_zero, Option.getD_some]
          rw [volume_repeat23, zero_div]
        · omega
        · simp only [List.getD_eq_getElem?_getD, List.getElem?_cons_succ,
            List.getElem?_cons_zero, Option.getD_some]
          rw [volume_repeat34, zero_div]
    · rw [← hp3, show (⟨p3.x, p3.y, p3.z⟩ : Vec3) = p3 from rfl]
      constructor
      · simp only [List.getD_eq_getElem?_getD, List.getElem?_cons_succ,
          List.getElem?_cons_zero, Option.getD_some]
        rw [← hvol]
        exact div_self hvne
      · intro i hi hij
        interval_cases i
        · simp only [List.getD_eq_getElem?_getD, List.getElem?_cons_zero, Option.getD_some]
          rw [volume_repeat14, zero_div]
        · simp only [List.getD_eq_getElem?_getD, List.getElem?_cons_succ,
            List.getElem?_cons_zero, Option.getD_some]
          rw [volume_repeat24, zero_div]
        · simp only [List.getD_eq_getElem?_getD, List.getElem?_cons_succ,
            List.getElem?_cons_zero, Option.getD_some]
          rw [volume_repeat34, zero_div]
        · omega
  · intro x y z hb b hmem
    by_cases hnd : |vol| < degenEps
    · rw [if_pos hnd] at hmem
      simp only [List.mem_cons, List.not_mem_nil, or_false] at hmem
      rcases hmem with h | h | h | h <;> rw [h] <;> norm_num
    · rw [if_neg hnd] at hmem hb
      have hs := hsum x y z hnd
      simp only [baryNonneg, List.getD_eq_getElem?_getD, List.getElem?_cons_succ,
        List.getElem?_cons_zero, Option.getD_some, Bool.and_eq_true,
        decide_eq_true_eq] at hb
      obtain ⟨h0, h1, h2, h3⟩ := hb
      simp only [List.mem_cons, List.not_mem_nil, or_false] at hmem
      rcases hmem with h | h | h | h <;> rw [h] <;> exact ⟨by assumption, by linarith⟩

/-- C8 witness: on the unit tetrahedron mesh, vertex 1 of tetrahedron 0
gets barycentric coordinate 1 in slot 1, and the coordinates of
`(1/8,1/8,1/8)` sum to 1. -/
theorem c8_barycentric_properties_witness :
    (unitTetMesh.computeBarycentricCoordinates 0
        (nodePos unitTetMesh.nodes ((unitTetMesh.getTetrahedron 0).getD 1 0)).x
        (nodePos unitTetMesh.nodes ((unitTetMesh.getTetrahedron 0).getD 1 0)).y
        (nodePos unitTetMesh.nodes ((unitTetMesh.getTetrahedron 0).getD 1 0)).z).getD 1 0
      = 1 ∧
    (unitTetMesh.computeBarycentricCoordinates 0 (1/8) (1/8) (1/8)).sum = 1 := by
  have hdeg : degenEps ≤ |unitTetMesh.tetVolume 0| := by
    norm_num [unitTetMesh, Mesh.tetVolume, Mesh.getTetrahedron, nodePos,
      tetrahedronVolume, degenEps, List.getD, abs_of_nonneg]
  have h := c8_barycentric_properties unitTetMesh 0
  exact ⟨(h.2.1 hdeg 1 (by norm_num)).1, h.1 (1/8) (1/8) (1/8)⟩

/-! ### C6 — the Poisson solve is capped, tolerance-stopped Jacobi -/

/-- Entry `i` of the scaled right-hand side is `divergence[i] * dt`. -/
lemma scaleRhs_getD (m : Mesh) (divergence : List ℚ) (dt : ℚ) (i : ℕ)
    (hi : i < m.nodeCount) (hlen : i < divergence.length) :
    (scaleRhs m divergence dt).getD i 0 = divergence.getD i 0 * dt := by
  have h := foldl_range_ite_set_getD (fun _ => True) (fun j cur => cur * dt)
    m.nodeCount divergence i hi hlen
  simpa [scaleRhs] using h

/-- One Jacobi sweep assigns each in-range node the neighbor-average
formula from the snapshot `p` when it has neighbors, and keeps `p`'s
value otherwise. -/
lemma jacobiSweep_getD (m : Mesh) (rhs p : List ℚ) (i : ℕ)
    (hi : i < m.nodeCount) (hlen : i < p.length) :
    (jacobiSweep m rhs p).getD i 0
      = if 0 < (getNeighbors m i).length
        then (((getNeighbors m i).map (fun n => p.getD n 0)).sum - rhs.getD i 0)
              / (getNeighbors m i).length
        else p.getD i 0 := by
  have h := foldl_range_ite_set_getD (fun j => 0 < (getNeighbors m j).length)
    (fun j _ => (((getNeighbors m j).map (fun n => p.getD n 0)).sum - rhs.getD j 0)
      / (getNeighbors m j).length) m.nodeCount p i hi hlen
  simpa [jacobiSweep] using h

/-- The iteration loop unrolls to some number `k ≤ fuel` of pure Jacobi
sweeps, with `k = fuel` (cap reached) or the convergence test satisfied
at step `k`. -/
lemma jacobiIter_iterate (m : Mesh) (rhs : List ℚ) :
    ∀ (fuel : ℕ) (p : List ℚ), ∃ k ≤ fuel,
      jacobiIter m rhs fuel p = (jacobiSweep m rhs)^[k] p ∧
      (k = fuel ∨ (1 ≤ k ∧
        maxAbsDiff m.nodeCount ((jacobiSweep m rhs)^[k] p)
          ((jacobiSweep m rhs)^[k - 1] p) < tolerance)) := by
  intro fuel
  induction fuel with
  | zero =>
    intro p
    exact ⟨0, le_refl 0, rfl, Or.inl rfl⟩
  | succ fuel ih =>
    intro p
    by_cases hc : maxAbsDiff m.nodeCount (jacobiSweep m rhs p) p < tolerance
    · refine ⟨1, by omega, ?_, Or.inr ⟨le_refl 1, ?_⟩⟩
      · simp only [jacobiIter]
        rw [if_pos hc, Function.iterate_one]
      · simpa [Function.iterate_one] using hc
    · obtain ⟨k, hk, heq, hcond⟩ := ih (jacobiSweep m rhs p)
      refine ⟨k + 1, by omega, ?_, ?_⟩
      · simp only [jacobiIter]
        rw [if_neg hc, heq, ← Function.iterate_succ_apply]
      · rcases hcond with h | ⟨hk1, h⟩
        · exact Or.inl (by omega)
        · refine Or.inr ⟨by omega, ?_⟩
          have hk1' : k - 1 + 1 = k := by omega
          have e1 : (jacobiSweep m rhs)^[k + 1] p
              = (jacobiSweep m rhs)^[k] (jacobiSweep m rhs p) :=
            Function.iterate_succ_apply _ _ _
          have e2 : (jacobiSweep m rhs)^[k] p
              = (jacobiSweep m rhs)^[k - 1] (jacobiSweep m rhs p) := by
            conv_lhs => rw [← hk1']
            exact Function.iterate_succ_apply _ _ _
          rw [Nat.add_sub_cancel, e1, e2]
          exact h

/-- C6: the Poisson solve (i) scales the divergence by `dt` to form the
right-hand side, (ii) updates every node with neighbors to
`(Σ p_old(neighbor) - rhs) / count` using only the previous sweep's
values, leaving zero-neighbor nodes unmodified, and (iii) runs some
`k ≤ 50` full Jacobi sweeps from the zero vector, stopping either at the
iteration cap or as soon as the maximum per-node change drops below
`1e-4` — hence it always terminates within the cap. -/
theorem c6_jacobi_solver (m : Mesh) (divergence : List ℚ) (dt : ℚ) :
    (∀ i, i < m.nodeCount → i < divergence.length →
      (scaleRhs m divergence dt).getD i 0 = divergence.getD i 0 * dt) ∧
    (∀ p : List ℚ, ∀ i, i < m.nodeCount → i < p.length →
      (jacobiSweep m (scaleRhs m divergence dt) p).getD i 0
        = if 0 < (getNeighbors m i).length
          then (((getNeighbors m i).map (fun n => p.getD n 0)).sum
              - (scaleRhs m divergence dt).getD i 0) / (getNeighbors m i).length
          else p.getD i 0) ∧
    (∃ k ≤ maxIterations,
      conjugateGradient m divergence dt
        = (jacobiSweep m (scaleRhs m divergence dt))^[k] (List.replicate m.nodeCount 0) ∧
      (k = maxIterations ∨ (1 ≤ k ∧
        maxAbsDiff m.nodeCount
          ((jacobiSweep m (scaleRhs m divergence dt))^[k] (List.replicate m.nodeCount 0))
          ((jacobiSweep m (scaleRhs m divergence dt))^[k - 1] (List.replicate m.nodeCount 0))
          < tolerance))) := by
  refine ⟨fun i hi hl => scaleRhs_getD m divergence dt i hi hl,
    fun p i hi hl => jacobiSweep_getD m (scaleRhs m divergence dt) p i hi hl, ?_⟩
  obtain ⟨k, hk, heq, hcond⟩ := jacobiIter_iterate m (scaleRhs m divergence dt)
    maxIterations (List.replicate m.nodeCount 0)
  exact ⟨k, hk, heq, hcond⟩

/-- C6 witness: on the unit tetrahedron mesh with divergence `[1,0,0,0]`
and `dt = 2`, the scaled right-hand side starts with `2`. -/
theorem c6_jacobi_solver_witness :
    (scaleRhs unitTetMesh [1,0,0,0] 2).getD 0 0 = (2:ℚ) := by
  have h := (c6_jacobi_solver unitTetMesh [1,0,0,0] 2).1 0
    (by norm_num [unitTetMesh, Mesh.nodeCount]) (by norm_num)
  rw [h]
  norm_num [List.getD]

/-! ### C7 — G2P replaces velocities outright; failures leave them -/

/-- `flipRatio = 0.95` of the simulator: declared in the source but never
read by the transfer code. -/
def flipRatio : ℚ := 19 / 20

/-- Point location returns either the not-found sentinel `-1` or a
nonnegative index. -/
lemma findContainingTetrahedron_cases (m : Mesh) (x y z : ℚ) :
    m.findContainingTetrahedron x y z = -1 ∨ 0 ≤ m.findContainingTetrahedron x y z := by
  unfold Mesh.findContainingTetrahedron
  rcases (List.range m.tetCount).find?
      (fun t => baryNonneg (m.computeBarycentricCoordinates t x y z)) with _ | t
  · exact Or.inl rfl
  · exact Or.inr (Int.ofNat_nonneg t)

/-- C7: in `meshToParticles`, every slot of the position buffer whose
point-location succeeds has its velocity replaced outright by the
barycentric interpolation `g2pSlotVelocity` of the four node velocities,
and every slot whose query returns `-1` keeps its prior velocity;
positions and `count` are untouched. -/
theorem c7_g2p_replaces_velocity (mesh : Mesh) (ps : ParticleSystem) (j k : ℕ)
    (hj : j < ps.positions.length / 3) (hk : k < 3)
    (hvlen : ps.velocities.length = ps.positions.length)
    (hcap : ps.positions.length ≤ ps.maxParticles * 3) :
    ((meshToParticles mesh ps).velocities.getD (j * 3 + k) 0
      = match g2pSlotVelocity mesh ps j with
        | some v => ([v.x, v.y, v.z] : List ℚ).getD k 0
        | none => ps.velocities.getD (j * 3 + k) 0) ∧
    (g2pSlotVelocity mesh ps j = none ↔
      mesh.findContainingTetrahedron (ps.positions.getD (j * 3) 0)
        (ps.positions.getD (j * 3 + 1) 0) (ps.positions.getD (j * 3 + 2) 0) = -1) ∧
    (meshToParticles mesh ps).positions = ps.positions ∧
    (meshToParticles mesh ps).count = ps.count := by
  have hLlen : ((List.range (ps.positions.length / 3)).foldl (fun acc j =>
      match g2pSlotVelocity mesh ps j with
      | some v => ((acc.set (j * 3) v.x).set (j * 3 + 1) v.y).set (j * 3 + 2) v.z
      | none => acc) ps.velocities).length = ps.velocities.length :=
    foldl_slot3_length _ _ _
  have hveq : (meshToParticles mesh ps).velocities
      = (List.range (ps.positions.length / 3)).foldl (fun acc j =>
          match g2pSlotVelocity mesh ps j with
          | some v => ((acc.set (j * 3) v.x).set (j * 3 + 1) v.y).set (j * 3 + 2) v.z
          | none => acc) ps.velocities := by
    show (ps.setVelocities _).1.velocities = _
    simp only [ParticleSystem.setVelocities, bufferSet]
    rw [if_neg (by rw [hLlen, hvlen]; omega)]
    rw [List.drop_eq_nil_of_le (by rw [hLlen])]
    exact List.append_nil _
  refine ⟨?_, ?_, rfl, rfl⟩
  · rw [hveq]
    exact foldl_range_slot3_getD (g2pSlotVelocity mesh ps) _ ps.velocities j k hj hk
      (by omega)
  · constructor
    · intro hnone
      rcases findContainingTetrahedron_cases mesh (ps.positions.getD (j * 3) 0)
          (ps.positions.getD (j * 3 + 1) 0) (ps.positions.getD (j * 3 + 2) 0) with h | h
      · exact h
      · exfalso
        simp only [g2pSlotVelocity, if_pos h] at hnone
        exact Option.noConfusion hnone
    · intro hfind
      simp only [g2pSlotVelocity, hfind]
      norm_num

/-- A mesh carrying the unit tetrahedron with node velocity `(8,0,0)` at
node 0 and zero elsewhere. -/
def velocityMesh : Mesh where
  nodes := [0,0,0, 1,0,0, 0,1,0, 0,0,1]
  nodeVelocities := [8,0,0, 0,0,0, 0,0,0, 0,0,0]
  tetrahedra := [0,1,2,3]

/-- A one-particle set at `(1/8,1/8,1/8)` with stale velocity `(9,9,9)`. -/
def probeParticles : ParticleSystem where
  maxParticles := 1
  count := 1
  positions := [1/8, 1/8, 1/8]
  velocities := [9, 9, 9]

/-- C7 witness: the probe particle's velocity is replaced by the
interpolated grid velocity `5` (barycentric weight `5/8` on node 0's
velocity `8`), discarding the stale `9`. -/
theorem c7_g2p_replaces_velocity_witness :
    (meshToParticles velocityMesh probeParticles).velocities.getD 0 0 = 5 := by
  have h := (c7_g2p_replaces_velocity velocityMesh probeParticles 0 0
    (by norm_num [probeParticles]) (by norm_num)
    (by norm_num [probeParticles]) (by norm_num [probeParticles])).1
  have hg : g2pSlotVelocity velocityMesh probeParticles 0 = some ⟨5, 0, 0⟩ := by
    norm_num [g2pSlotVelocity, velocityMesh, probeParticles,
      Mesh.findContainingTetrahedron, Mesh.tetCount, Mesh.computeBarycentricCoordinates,
      Mesh.getTetrahedron, nodePos, tetrahedronVolume, baryNonneg, degenEps,
      List.find?, List.range, List.range.loop, List.getD, abs_of_nonneg]
  rw [hg] at h
  simpa using h

end TetFlip
